import Mathlib

/-!
Shallow embedding of the `egui-sdl2-event-example` repository (`src/main.rs`
and its frame-timer component) together with proofs of the specified
properties.

Time is modelled by the injectable fake clock the specification itself
prescribes for testing: clock readings and second-valued durations are exact
rationals (`ℚ`), so "within the resolution of the underlying clock" becomes
exact equality.  Effectful library calls (SDL event translation, egui, wgpu)
are recorded as actions in a trace.
-/

namespace EguiSDL2Example

/-- Modelled from the spec: `src/main.rs` declares `mod frame_timer;` and uses
`FrameTimer::{new, time_start, time_stop, delta}` (`src/main.rs:172,180-181,252`),
but the file `src/frame_timer.rs` is not among the available sources.  The
state is taken from spec §3: `last_mark` is the clock reading of the previous
start event, `current_delta` the elapsed seconds between the two most recent
marks. -/
structure FrameTimer where
  last_mark : ℚ
  current_delta : ℚ
deriving DecidableEq, Repr

/-- Modelled from the spec: §4.1 `new() -> Timer` "initializes the internal
mark to the current monotonic clock reading"; before the first `time_start`
the delta is zero (§3 invariant, §8 "returns a defined, non-negative value").
The current clock reading is passed explicitly (fake clock). -/
def FrameTimer.new (now : ℚ) : FrameTimer :=
  { last_mark := now, current_delta := 0 }

/-- Modelled from the spec: §4.1 `time_start` "reads the current monotonic
clock, computes elapsed time since the previous mark, stores it as the current
delta ..., and overwrites the stored mark with the new reading".  A backward
clock jump is clamped to zero (§7 "handled by clamping to zero rather than
propagating a signed value", §8 last property); this also matches Rust, where
`Instant::duration_since` saturates at zero.  (§4's "no clamping" sentence is
about outlier rejection of large deltas, which indeed does not happen.) -/
def FrameTimer.time_start (t : FrameTimer) (now : ℚ) : FrameTimer :=
  { last_mark := now, current_delta := max 0 (now - t.last_mark) }

/-- Modelled from the spec: §4.1 `time_stop` "performs no measurement
(placeholder for future frame-rate-limiting logic)"; it is a no-op. -/
def FrameTimer.time_stop (t : FrameTimer) : FrameTimer :=
  t

/-- Modelled from the spec: §4.1 `delta` "returns the most recently computed
elapsed time in seconds"; pure read of the stored delta. -/
def FrameTimer.delta (t : FrameTimer) : ℚ :=
  t.current_delta

/-- An operation performed on the timer by the driver between two points of
observation: a `time_start` at a given fake-clock reading, or a `time_stop`.
(`delta` is a pure read and does not change the state.) -/
inductive TimerOp where
  | start (now : ℚ)
  | stop
deriving DecidableEq, Repr

/-- Run a sequence of timer operations from a given timer state. -/
def execOps (t : FrameTimer) : List TimerOp → FrameTimer
  | [] => t
  | TimerOp.start now :: rest => execOps (t.time_start now) rest
  | TimerOp.stop :: rest => execOps t.time_stop rest

/-- The clock reading of the most recent `start` in `ops`, or the construction
reading `t0` if there is none. -/
def lastStartTime (t0 : ℚ) (ops : List TimerOp) : ℚ :=
  ops.foldl (fun acc op => match op with
    | TimerOp.start now => now
    | TimerOp.stop => acc) t0

theorem execOps_append (t : FrameTimer) (l1 l2 : List TimerOp) :
    execOps t (l1 ++ l2) = execOps (execOps t l1) l2 := by
  induction l1 generalizing t with
  | nil => rfl
  | cons op rest ih =>
    cases op with
    | start now => simpa [execOps] using ih (t.time_start now)
    | stop => simpa [execOps] using ih t.time_stop

theorem execOps_last_mark (ops : List TimerOp) (t : FrameTimer) :
    (execOps t ops).last_mark = lastStartTime t.last_mark ops := by
  induction ops generalizing t with
  | nil => rfl
  | cons op rest ih =>
    cases op with
    | start now => simp [execOps, lastStartTime, FrameTimer.time_start, ih]
    | stop => simp [execOps, lastStartTime, FrameTimer.time_stop, ih]

theorem execOps_delta_nonneg (ops : List TimerOp) (t : FrameTimer)
    (h : 0 ≤ t.current_delta) : 0 ≤ (execOps t ops).current_delta := by
  induction ops generalizing t with
  | nil => exact h
  | cons op rest ih =>
    cases op with
    | start now =>
      exact ih (t.time_start now) (le_max_left 0 (now - t.last_mark))
    | stop => exact ih t.time_stop h

/-- C1: after any `time_start` whose clock reading `now` is not earlier than
the most recent mark (the monotonic-clock assumption), `delta()` equals the
elapsed time since the previous `time_start` (or since `new()` if there was
none), and the stored mark is overwritten with `now`, so consecutive deltas
partition the timeline with no gap or overlap. -/
theorem timer_delta_measures_elapsed (t0 : ℚ) (ops : List TimerOp) (now : ℚ)
    (hmono : lastStartTime t0 ops ≤ now) :
    (execOps (FrameTimer.new t0) (ops ++ [TimerOp.start now])).delta
        = now - lastStartTime t0 ops
    ∧ (execOps (FrameTimer.new t0) (ops ++ [TimerOp.start now])).last_mark
        = now := by
  have hmark : (execOps (FrameTimer.new t0) ops).last_mark
      = lastStartTime t0 ops := by
    simpa [FrameTimer.new] using execOps_last_mark ops (FrameTimer.new t0)
  rw [execOps_append]
  constructor
  · show (FrameTimer.time_start _ now).current_delta = _
    rw [FrameTimer.time_start]
    simp only [hmark]
    exact max_eq_right (sub_nonneg.mpr hmono)
  · show (FrameTimer.time_start _ now).last_mark = now
    rfl

/-- Witness for `timer_delta_measures_elapsed`: construction at reading 0,
a start at 2 and a stop, then a start at 5 yields delta 3 and mark 5. -/
theorem timer_delta_measures_elapsed_witness :
    (execOps (FrameTimer.new 0) ([TimerOp.start 2, TimerOp.stop]
        ++ [TimerOp.start 5])).delta = 5 - lastStartTime 0 [TimerOp.start 2, TimerOp.stop]
    ∧ (execOps (FrameTimer.new 0) ([TimerOp.start 2, TimerOp.stop]
        ++ [TimerOp.start 5])).last_mark = 5 :=
  timer_delta_measures_elapsed 0 [TimerOp.start 2, TimerOp.stop] 5 (by decide)

/-- C2: after every sequence of operations starting from `new`, the stored
delta (and hence the value `delta()` returns) is non-negative — even when the
fake clock readings are arbitrary, i.e. may jump backward — and a
`time_start` whose reading is earlier than the stored mark clamps the
computed delta to 0. -/
theorem timer_delta_nonneg_invariant (t0 : ℚ) (ops : List TimerOp) (now : ℚ) :
    0 ≤ (execOps (FrameTimer.new t0) ops).delta
    ∧ (now < (execOps (FrameTimer.new t0) ops).last_mark →
        ((execOps (FrameTimer.new t0) ops).time_start now).delta = 0) := by
  constructor
  · exact execOps_delta_nonneg ops (FrameTimer.new t0) le_rfl
  · intro hback
    show max 0 (now - (execOps (FrameTimer.new t0) ops).last_mark) = 0
    exact max_eq_left (by linarith)

/-- Witness for `timer_delta_nonneg_invariant`: after a start at reading 5,
a backward jump to reading 2 yields a clamped delta of 0. -/
theorem timer_delta_nonneg_invariant_witness :
    0 ≤ (execOps (FrameTimer.new 0) [TimerOp.start 5]).delta
    ∧ ((2 : ℚ) < (execOps (FrameTimer.new 0) [TimerOp.start 5]).last_mark →
        ((execOps (FrameTimer.new 0) [TimerOp.start 5]).time_start 2).delta = 0) :=
  timer_delta_nonneg_invariant 0 [TimerOp.start 5] 2

/-- C4: `time_stop` never changes the value a subsequent `delta()` returns:
for every timer state and clock reading, the sequence
`time_start(); x = delta(); time_stop(); y = delta()` yields `x = y`, and in
general `time_stop` leaves the observable delta unchanged. -/
theorem time_stop_preserves_delta (t : FrameTimer) (now : ℚ) :
    ((t.time_start now).time_stop).delta = (t.time_start now).delta
    ∧ (t.time_stop).delta = t.delta :=
  ⟨rfl, rfl⟩

/-- C5: immediately after `new()` and before any `time_start`, `delta()`
returns the defined value 0, which is non-negative; `delta` is a pure read
(a function of the state that cannot fail and returns no modified state). -/
theorem delta_defined_after_new (now : ℚ) :
    (FrameTimer.new now).delta = 0 ∧ 0 ≤ (FrameTimer.new now).delta :=
  ⟨rfl, le_refl 0⟩

/-! ## Embedding of `src/main.rs` -/

/-- SDL2 keycodes, as matched in `src/main.rs:190`: only `Escape` is
distinguished; every other keycode is carried as an opaque code. -/
inductive Keycode where
  | escape
  | otherKey (code : Nat)
deriving DecidableEq, Repr

/-- SDL2 window events, as matched in `src/main.rs:197`: `SizeChanged` and
`Resized` carry `i32` dimensions; other window events are opaque. -/
inductive WindowEvent where
  | sizeChanged (w h : Int)
  | resized (w h : Int)
  | otherWindowEvent (code : Nat)
deriving DecidableEq, Repr

/-- SDL2 events, as matched in `src/main.rs:187-208`: `Quit`, `KeyDown` with
its optional keycode, `Window` with its window id and window event; all other
events are opaque. -/
inductive Event where
  | quit
  | keyDown (keycode : Option Keycode)
  | window (window_id : Nat) (win_event : WindowEvent)
  | otherEvent (code : Nat)
deriving DecidableEq, Repr

/-- `wgpu::TextureUsages` as used in `src/main.rs:68`. -/
inductive TextureUsages where
  | RENDER_ATTACHMENT
  | otherUsage (code : Nat)
deriving DecidableEq, Repr

/-- `wgpu::PresentMode` as used in `src/main.rs:72`. -/
inductive PresentMode where
  | Mailbox
  | otherMode (code : Nat)
deriving DecidableEq, Repr

/-- `wgpu::SurfaceConfiguration` (`src/main.rs:67-73`): usage, format
(an opaque value obtained from `surface.get_preferred_format`), width, height
(`u32`), and present mode. -/
structure SurfaceConfiguration where
  usage : TextureUsages
  format : Nat
  width : Nat
  height : Nat
  present_mode : PresentMode
deriving DecidableEq, Repr

/-- Rust `x as u32` for `x : i32` (`src/main.rs:202-203`): reduction modulo
`2^32`, landing in `[0, 2^32)`. -/
def u32_cast (x : Int) : Nat :=
  (x % 4294967296).toNat

/-- `wgpu::SurfaceError`, matched in `src/main.rs:98-106`: `Outdated` has its
own arm; the remaining variants are caught by the general error arm. -/
inductive SurfaceError where
  | Timeout
  | Outdated
  | Lost
  | OutOfMemory
deriving DecidableEq, Repr

/-- `egui::TexturesDelta` as consumed by `paint_and_update_textures`
(`src/main.rs:124,152`): the ids of textures to set and to free (the image
payloads are irrelevant to the control flow). -/
structure TexturesDelta where
  set : List Nat
  free : List Nat
deriving DecidableEq, Repr

/-- GPU-side effects performed by `paint_and_update_textures`, in program
order (`src/main.rs:107-161`). -/
inductive GpuAction where
  | createView
  | updateTexture (id : Nat)
  | updateBuffers
  | execute
  | freeTexture (id : Nat)
  | submit
  | present
deriving DecidableEq, Repr

/-- `paint_and_update_textures` (`src/main.rs:87-162`), as the trace of GPU
effects it performs.  `frame_result` is the outcome of
`surface.get_current_texture()`; on `Err(Outdated)` and on any other error the
function returns immediately (both arms at `src/main.rs:100-105`). -/
def paint_and_update_textures (frame_result : Except SurfaceError Nat)
    (textures_delta : TexturesDelta) : List GpuAction :=
  match frame_result with
  | Except.error SurfaceError.Outdated => []
  | Except.error _ => []
  | Except.ok _frame =>
    [GpuAction.createView]
      ++ textures_delta.set.map GpuAction.updateTexture
      ++ [GpuAction.updateBuffers, GpuAction.execute]
      ++ textures_delta.free.map GpuAction.freeTexture
      ++ [GpuAction.submit, GpuAction.present]

/-- Observable actions of one iteration of the main loop
(`src/main.rs:179-253`). -/
inductive Action where
  | timeStart
  | updateTime (running_time : Option ℚ) (delta : ℚ)
  | surfaceConfigure (cfg : SurfaceConfiguration)
  | sdl2InputToEgui (e : Event)
  | eguiRun
  | processOutput
  | tessellate
  | paint
  | timeStop
deriving DecidableEq, Repr

/-- The body of the `for event in event_pump.poll_iter()` match
(`src/main.rs:187-209`) for one event: `none` means `break 'running`
(Quit, or KeyDown with keycode `Some(Escape)`); otherwise the possibly
updated surface configuration and the actions performed, ending with the
unconditional `sdl2_input_to_egui` call (`src/main.rs:209`). -/
def handleEvent (main_window_id : Nat) (cfg : SurfaceConfiguration)
    (e : Event) : Option (SurfaceConfiguration × List Action) :=
  match e with
  | Event.quit => none
  | Event.keyDown (some Keycode.escape) => none
  | Event.window window_id win_event =>
    match win_event with
    | WindowEvent.sizeChanged w h | WindowEvent.resized w h =>
      if window_id = main_window_id then
        let c := { cfg with width := u32_cast w, height := u32_cast h }
        some (c, [Action.surfaceConfigure c, Action.sdl2InputToEgui e])
      else
        some (cfg, [Action.sdl2InputToEgui e])
    | WindowEvent.otherWindowEvent _ =>
      some (cfg, [Action.sdl2InputToEgui e])
  | _ => some (cfg, [Action.sdl2InputToEgui e])

/-- The whole event-polling loop (`src/main.rs:186-210`): events are handled
in order; a Quit or Escape event breaks out at once (returning `true` in the
last component), skipping the remaining events. -/
def processEvents (main_window_id : Nat) :
    SurfaceConfiguration → List Event →
      SurfaceConfiguration × List Action × Bool
  | cfg, [] => (cfg, [], false)
  | cfg, e :: rest =>
    match handleEvent main_window_id cfg e with
    | none => (cfg, [], true)
    | some (cfg1, acts) =>
      let r := processEvents main_window_id cfg1 rest
      (r.1, acts ++ r.2.1, r.2.2)

/-- The loop-local mutable state threaded through iterations of `main`:
the frame timer, the accumulated `running_time` (`src/main.rs:177,182`) and
the surface configuration. -/
structure IterState where
  timer : FrameTimer
  running_time : ℚ
  surface_config : SurfaceConfiguration
deriving DecidableEq, Repr

/-- One iteration of the `'running: loop` (`src/main.rs:179-253`), given the
fake-clock reading at `time_start`, the polled events, and the
`needs_repaint` flag of the `FullOutput` produced by `egui_ctx.run` for this
frame (the GUI layer is an external collaborator).  Returns the new state,
the trace of actions, and whether the loop broke.  On a break the iteration
stops inside the event loop: `egui_ctx.run`, `process_output`, `tessellate`,
the conditional paint and `time_stop` do not run. -/
def loopIter (main_window_id : Nat) (now : ℚ) (events : List Event)
    (needs_repaint : Bool) (s : IterState) :
    IterState × List Action × Bool :=
  let timer1 := s.timer.time_start now
  let delta := timer1.delta
  let rt := s.running_time + delta
  let ev := processEvents main_window_id s.surface_config events
  if ev.2.2 then
    ({ timer := timer1, running_time := rt, surface_config := ev.1 },
      [Action.timeStart, Action.updateTime (some rt) delta] ++ ev.2.1,
      true)
  else
    ({ timer := timer1.time_stop, running_time := rt, surface_config := ev.1 },
      [Action.timeStart, Action.updateTime (some rt) delta] ++ ev.2.1
        ++ [Action.eguiRun, Action.processOutput, Action.tessellate]
        ++ (if needs_repaint then [Action.paint] else [])
        ++ [Action.timeStop],
      false)

/-- The surface configuration built in `init_sdl` (`src/main.rs:67-73`):
`RENDER_ATTACHMENT` usage, the preferred format reported by the adapter,
the given dimensions, `Mailbox` present mode. -/
def init_surface_config (format : Nat) (width height : Nat) :
    SurfaceConfiguration :=
  { usage := TextureUsages.RENDER_ATTACHMENT
    format := format
    width := width
    height := height
    present_mode := PresentMode.Mailbox }

theorem handleEvent_eq_none_iff (mid : Nat) (cfg : SurfaceConfiguration)
    (e : Event) :
    handleEvent mid cfg e = none ↔
      e = Event.quit ∨ e = Event.keyDown (some Keycode.escape) := by
  cases e with
  | quit => simp [handleEvent]
  | keyDown kc =>
    match kc with
    | none => simp [handleEvent]
    | some Keycode.escape => simp [handleEvent]
    | some (Keycode.otherKey c) => simp [handleEvent]
  | window wid we =>
    cases we with
    | sizeChanged w h => simp only [handleEvent]; split <;> simp
    | resized w h => simp only [handleEvent]; split <;> simp
    | otherWindowEvent c => simp [handleEvent]
  | otherEvent c => simp [handleEvent]

theorem handleEvent_forwards (mid : Nat) (cfg : SurfaceConfiguration)
    (e : Event) (cfg1 : SurfaceConfiguration) (acts : List Action)
    (h : handleEvent mid cfg e = some (cfg1, acts)) :
    Action.sdl2InputToEgui e ∈ acts := by
  cases e with
  | quit => simp [handleEvent] at h
  | keyDown kc =>
    match kc with
    | none => simp [handleEvent] at h; simp [h.2.symm]
    | some Keycode.escape => simp [handleEvent] at h
    | some (Keycode.otherKey c) => simp [handleEvent] at h; simp [h.2.symm]
  | window wid we =>
    cases we with
    | sizeChanged w h2 =>
      simp only [handleEvent] at h
      split at h <;> (simp at h; simp [h.2.symm])
    | resized w h2 =>
      simp only [handleEvent] at h
      split at h <;> (simp at h; simp [h.2.symm])
    | otherWindowEvent c => simp [handleEvent] at h; simp [h.2.symm]
  | otherEvent c => simp [handleEvent] at h; simp [h.2.symm]

theorem handleEvent_action_shape (mid : Nat) (cfg : SurfaceConfiguration)
    (e : Event) (cfg1 : SurfaceConfiguration) (acts : List Action)
    (h : handleEvent mid cfg e = some (cfg1, acts)) :
    ∀ a ∈ acts, (∃ c, a = Action.surfaceConfigure c)
      ∨ ∃ ev, a = Action.sdl2InputToEgui ev := by
  cases e with
  | quit => simp [handleEvent] at h
  | keyDown kc =>
    match kc with
    | none => simp [handleEvent] at h; simp [h.2.symm]
    | some Keycode.escape => simp [handleEvent] at h
    | some (Keycode.otherKey c) => simp [handleEvent] at h; simp [h.2.symm]
  | window wid we =>
    cases we with
    | sizeChanged w h2 =>
      by_cases hid : wid = mid
      · simp [handleEvent, hid] at h
        intro a ha
        rw [← h.2] at ha
        rcases List.mem_cons.mp ha with rfl | ha2
        · exact Or.inl ⟨_, rfl⟩
        · rcases List.mem_singleton.mp ha2 with rfl
          exact Or.inr ⟨_, rfl⟩
      · simp [handleEvent, hid] at h
        intro a ha
        rw [← h.2] at ha
        rcases List.mem_singleton.mp ha with rfl
        exact Or.inr ⟨_, rfl⟩
    | resized w h2 =>
      by_cases hid : wid = mid
      · simp [handleEvent, hid] at h
        intro a ha
        rw [← h.2] at ha
        rcases List.mem_cons.mp ha with rfl | ha2
        · exact Or.inl ⟨_, rfl⟩
        · rcases List.mem_singleton.mp ha2 with rfl
          exact Or.inr ⟨_, rfl⟩
      · simp [handleEvent, hid] at h
        intro a ha
        rw [← h.2] at ha
        rcases List.mem_singleton.mp ha with rfl
        exact Or.inr ⟨_, rfl⟩
    | otherWindowEvent c => simp [handleEvent] at h; simp [h.2.symm]
  | otherEvent c => simp [handleEvent] at h; simp [h.2.symm]

theorem processEvents_break_iff (mid : Nat) (evs : List Event)
    (cfg : SurfaceConfiguration) :
    (processEvents mid cfg evs).2.2 = true ↔
      ∃ e ∈ evs, e = Event.quit ∨ e = Event.keyDown (some Keycode.escape) := by
  induction evs generalizing cfg with
  | nil => simp [processEvents]
  | cons e rest ih =>
    cases h : handleEvent mid cfg e with
    | none =>
      have he := (handleEvent_eq_none_iff mid cfg e).mp h
      simp [processEvents, h]
      exact Or.inl he
    | some pair =>
      obtain ⟨cfg1, acts⟩ := pair
      have hne : ¬(e = Event.quit ∨ e = Event.keyDown (some Keycode.escape)) := by
        intro hc
        rw [(handleEvent_eq_none_iff mid cfg e).mpr hc] at h
        cases h
      simp only [processEvents, h, List.mem_cons, exists_eq_or_imp]
      rw [ih cfg1]
      constructor
      · exact Or.inr
      · rintro (hc | hc)
        · exact absurd hc hne
        · exact hc

theorem processEvents_forwards (mid : Nat) (evs : List Event)
    (cfg : SurfaceConfiguration)
    (hnb : (processEvents mid cfg evs).2.2 = false) :
    ∀ e ∈ evs,
      Action.sdl2InputToEgui e ∈ (processEvents mid cfg evs).2.1 := by
  induction evs generalizing cfg with
  | nil => simp
  | cons e rest ih =>
    cases h : handleEvent mid cfg e with
    | none => rw [processEvents, h] at hnb; cases hnb
    | some pair =>
      obtain ⟨cfg1, acts⟩ := pair
      rw [processEvents, h] at hnb ⊢
      intro x hx
      rcases List.mem_cons.mp hx with rfl | hx2
      · exact List.mem_append_left _ (handleEvent_forwards mid cfg x cfg1 acts h)
      · exact List.mem_append_right _ (ih cfg1 hnb x hx2)

theorem processEvents_action_shape (mid : Nat) (evs : List Event)
    (cfg : SurfaceConfiguration) :
    ∀ a ∈ (processEvents mid cfg evs).2.1,
      (∃ c, a = Action.surfaceConfigure c)
        ∨ ∃ ev, a = Action.sdl2InputToEgui ev := by
  induction evs generalizing cfg with
  | nil => simp [processEvents]
  | cons e rest ih =>
    cases h : handleEvent mid cfg e with
    | none => rw [processEvents, h]; simp
    | some pair =>
      obtain ⟨cfg1, acts⟩ := pair
      rw [processEvents, h]
      intro a ha
      rcases List.mem_append.mp ha with ha2 | ha2
      · exact handleEvent_action_shape mid cfg e cfg1 acts h a ha2
      · exact ih cfg1 a ha2

/-- C7: when `surface.get_current_texture()` fails — with `Outdated` or any
other error — `paint_and_update_textures` returns early and performs no GPU
action at all: no texture update, no buffer upload, no command submission, no
present; no error is propagated and no retry happens. -/
theorem paint_skips_frame_on_surface_error (err : SurfaceError)
    (td : TexturesDelta) :
    paint_and_update_textures (Except.error err) td = [] := by
  cases err <;> rfl

/-- C9: the event loop breaks out of `'running` exactly when some polled
event is `Quit` or `KeyDown` with keycode `Some(Escape)`; per event,
`handleEvent` signals a break iff the event is one of those two; and when no
break happens, every polled event is forwarded to `sdl2_input_to_egui`. -/
theorem loop_exits_only_on_quit_or_escape (mid : Nat)
    (cfg : SurfaceConfiguration) (evs : List Event) :
    ((processEvents mid cfg evs).2.2 = true ↔
      ∃ e ∈ evs, e = Event.quit ∨ e = Event.keyDown (some Keycode.escape))
    ∧ (∀ e, handleEvent mid cfg e = none ↔
        (e = Event.quit ∨ e = Event.keyDown (some Keycode.escape)))
    ∧ ((processEvents mid cfg evs).2.2 = false →
        ∀ e ∈ evs,
          Action.sdl2InputToEgui e ∈ (processEvents mid cfg evs).2.1) :=
  ⟨processEvents_break_iff mid evs cfg,
   fun e => handleEvent_eq_none_iff mid cfg e,
   fun hnb => processEvents_forwards mid evs cfg hnb⟩

/-- Witness for `loop_exits_only_on_quit_or_escape`: with a resize event and
a mouse-like opaque event the loop does not break and both events are
forwarded; a quit event breaks it. -/
theorem loop_exits_only_on_quit_or_escape_witness :
    ((processEvents 1 (init_surface_config 7 800 600)
        [Event.window 1 (WindowEvent.resized 640 480), Event.otherEvent 3]).2.2 = false
      ∧ Action.sdl2InputToEgui (Event.otherEvent 3) ∈
          (processEvents 1 (init_surface_config 7 800 600)
            [Event.window 1 (WindowEvent.resized 640 480), Event.otherEvent 3]).2.1)
    ∧ (processEvents 1 (init_surface_config 7 800 600) [Event.quit]).2.2 = true := by
  have h := loop_exits_only_on_quit_or_escape 1 (init_surface_config 7 800 600)
    [Event.window 1 (WindowEvent.resized 640 480), Event.otherEvent 3]
  have hq := loop_exits_only_on_quit_or_escape 1 (init_surface_config 7 800 600)
    [Event.quit]
  refine ⟨⟨rfl, ?_⟩, ?_⟩
  · exact h.2.2 rfl (Event.otherEvent 3) (by simp)
  · exact hq.1.mpr ⟨Event.quit, by simp, Or.inl rfl⟩

/-- C10: on a `Window` event carrying `SizeChanged` or `Resized` dimensions,
if the event's window id equals the main window's id then exactly the
`width` and `height` fields of the surface configuration are overwritten with
the event's dimensions (cast `as u32`; for dimensions in `[0, 2^32)` this is
the dimension itself) and the surface is reconfigured with the new
configuration; `usage`, `format` and `present_mode` are untouched, as the
record-update form of the result shows.  For a non-matching window id the
configuration is entirely unchanged and no reconfigure happens. -/
theorem resize_updates_only_dimensions (mid : Nat)
    (cfg : SurfaceConfiguration) (wid : Nat) (we : WindowEvent) (w h : Int)
    (hwe : we = WindowEvent.sizeChanged w h ∨ we = WindowEvent.resized w h) :
    (wid = mid →
      handleEvent mid cfg (Event.window wid we) =
        some ({ cfg with width := u32_cast w, height := u32_cast h },
          [Action.surfaceConfigure
              { cfg with width := u32_cast w, height := u32_cast h },
            Action.sdl2InputToEgui (Event.window wid we)]))
    ∧ (wid ≠ mid →
        handleEvent mid cfg (Event.window wid we) =
          some (cfg, [Action.sdl2InputToEgui (Event.window wid we)]))
    ∧ (0 ≤ w → w < 4294967296 → u32_cast w = w.toNat)
    ∧ (0 ≤ h → h < 4294967296 → u32_cast h = h.toNat) := by
  have hcast : ∀ x : Int, 0 ≤ x → x < 4294967296 → u32_cast x = x.toNat := by
    intro x hx0 hxlt
    unfold u32_cast
    rw [Int.emod_eq_of_lt hx0 hxlt]
  rcases hwe with rfl | rfl <;>
    exact ⟨fun hid => by simp [handleEvent, hid],
      fun hid => by simp [handleEvent, hid],
      hcast w, hcast h⟩

/-- Witness for `resize_updates_only_dimensions`: a 640×480 `SizeChanged`
event for window 1 updates the main window's (id 1) configuration to
640×480 and reconfigures; for the configuration of a different main window
id (2) it changes nothing; the `as u32` cast is the identity on 640. -/
theorem resize_updates_only_dimensions_witness :
    handleEvent 1 (init_surface_config 7 800 600)
        (Event.window 1 (WindowEvent.sizeChanged 640 480)) =
      some ({ init_surface_config 7 800 600 with
                width := u32_cast 640, height := u32_cast 480 },
        [Action.surfaceConfigure
            { init_surface_config 7 800 600 with
                width := u32_cast 640, height := u32_cast 480 },
          Action.sdl2InputToEgui (Event.window 1 (WindowEvent.sizeChanged 640 480))])
    ∧ handleEvent 2 (init_surface_config 7 800 600)
        (Event.window 1 (WindowEvent.sizeChanged 640 480)) =
      some (init_surface_config 7 800 600,
        [Action.sdl2InputToEgui (Event.window 1 (WindowEvent.sizeChanged 640 480))])
    ∧ u32_cast 640 = (640 : Int).toNat := by
  have h1 := resize_updates_only_dimensions 1 (init_surface_config 7 800 600)
    1 (WindowEvent.sizeChanged 640 480) 640 480 (Or.inl rfl)
  have h2 := resize_updates_only_dimensions 2 (init_surface_config 7 800 600)
    1 (WindowEvent.sizeChanged 640 480) 640 480 (Or.inl rfl)
  exact ⟨h1.1 rfl, h2.2.1 (by decide), h1.2.2.1 (by decide) (by decide)⟩

theorem processEvents_not_mem (mid : Nat) (evs : List Event)
    (cfg : SurfaceConfiguration) (a : Action)
    (h1 : ∀ c, a ≠ Action.surfaceConfigure c)
    (h2 : ∀ e, a ≠ Action.sdl2InputToEgui e) :
    a ∉ (processEvents mid cfg evs).2.1 := by
  intro hmem
  rcases processEvents_action_shape mid evs cfg a hmem with ⟨c, hc⟩ | ⟨e, he⟩
  · exact h1 c hc
  · exact h2 e he

theorem processEvents_count_zero (mid : Nat) (evs : List Event)
    (cfg : SurfaceConfiguration) (a : Action)
    (h1 : ∀ c, a ≠ Action.surfaceConfigure c)
    (h2 : ∀ e, a ≠ Action.sdl2InputToEgui e) :
    (processEvents mid cfg evs).2.1.count a = 0 :=
  List.count_eq_zero.mpr (processEvents_not_mem mid evs cfg a h1 h2)

/-- C8: GPU drawing happens only behind the `needs_repaint` check.  The
`paint` step is in an iteration's trace only if the `FullOutput` of this
frame has `needs_repaint = true`; in every iteration that does not break out
of the loop, `paint` is in the trace exactly when the flag is set, and
regardless of the flag the timer calls, the forwarding of every polled
event, the GUI build (`egui_ctx.run`), `process_output` and `tessellate` are
all in the trace. -/
theorem paint_only_when_needs_repaint (mid : Nat) (now : ℚ)
    (events : List Event) (nr : Bool) (s : IterState) :
    (Action.paint ∈ (loopIter mid now events nr s).2.1 → nr = true)
    ∧ ((loopIter mid now events nr s).2.2 = false →
        (nr = true ↔ Action.paint ∈ (loopIter mid now events nr s).2.1)
        ∧ Action.timeStart ∈ (loopIter mid now events nr s).2.1
        ∧ Action.timeStop ∈ (loopIter mid now events nr s).2.1
        ∧ Action.eguiRun ∈ (loopIter mid now events nr s).2.1
        ∧ Action.processOutput ∈ (loopIter mid now events nr s).2.1
        ∧ Action.tessellate ∈ (loopIter mid now events nr s).2.1
        ∧ ∀ e ∈ events,
            Action.sdl2InputToEgui e ∈ (loopIter mid now events nr s).2.1) := by
  have hpaint : Action.paint ∉ (processEvents mid s.surface_config events).2.1 :=
    processEvents_not_mem mid events s.surface_config Action.paint
      (fun c hc => by cases hc) (fun e he => by cases he)
  by_cases hb : (processEvents mid s.surface_config events).2.2 = true
  · constructor
    · intro hp
      simp only [loopIter, hb, if_true] at hp
      rcases List.mem_cons.mp hp with hc | hp2
      · cases hc
      rcases List.mem_cons.mp hp2 with hc | hp3
      · cases hc
      exact absurd hp3 hpaint
    · intro hfalse
      simp only [loopIter, hb, if_true] at hfalse
      cases hfalse
  · have hb2 : (processEvents mid s.surface_config events).2.2 = false :=
      Bool.not_eq_true _ ▸ (by simpa using hb)
    simp only [loopIter, hb2, Bool.false_eq_true, if_false, List.cons_append,
      List.append_assoc, List.nil_append]
    constructor
    · intro hp
      rcases List.mem_cons.mp hp with hc | hp2
      · cases hc
      rcases List.mem_cons.mp hp2 with hc | hp3
      · cases hc
      rcases List.mem_append.mp hp3 with hp4 | hp4
      · exact absurd hp4 hpaint
      cases nr with
      | true => rfl
      | false => simp at hp4
    · intro _
      refine ⟨?_, by simp, ?_, by simp, by simp, by simp, ?_⟩
      · constructor
        · intro hnr
          subst hnr
          simp
        · intro hp
          rcases List.mem_cons.mp hp with hc | hp2
          · cases hc
          rcases List.mem_cons.mp hp2 with hc | hp3
          · cases hc
          rcases List.mem_append.mp hp3 with hp4 | hp4
          · exact absurd hp4 hpaint
          cases nr with
          | true => rfl
          | false => simp at hp4
      · simp
      · intro e he
        have := processEvents_forwards mid events s.surface_config hb2 e he
        simp [this]

/-- Witness for `paint_only_when_needs_repaint`: a concrete completed
iteration with `needs_repaint = false` has no `paint` in its trace but does
contain the GUI build and both timer calls. -/
theorem paint_only_when_needs_repaint_witness :
    Action.paint ∉ (loopIter 1 2 [Event.otherEvent 0] false
      { timer := FrameTimer.new 0, running_time := 0,
        surface_config := init_surface_config 7 800 600 }).2.1
    ∧ Action.eguiRun ∈ (loopIter 1 2 [Event.otherEvent 0] false
        { timer := FrameTimer.new 0, running_time := 0,
          surface_config := init_surface_config 7 800 600 }).2.1
    ∧ Action.timeStop ∈ (loopIter 1 2 [Event.otherEvent 0] false
        { timer := FrameTimer.new 0, running_time := 0,
          surface_config := init_surface_config 7 800 600 }).2.1 := by
  have h := paint_only_when_needs_repaint 1 2 [Event.otherEvent 0] false
    { timer := FrameTimer.new 0, running_time := 0,
      surface_config := init_surface_config 7 800 600 }
  have hb : (loopIter 1 2 [Event.otherEvent 0] false
      { timer := FrameTimer.new 0, running_time := 0,
        surface_config := init_surface_config 7 800 600 }).2.2 = false := by
    decide
  refine ⟨fun hp => ?_, (h.2 hb).2.2.2.1, (h.2 hb).2.2.1⟩
  cases (h.2 hb).1.mpr hp

/-- Counterexample to C6 as stated: in the loop iteration that polls a
`Quit` event, `break 'running` fires inside the event loop, so `time_stop`
is never reached (`src/main.rs:193` exits before `src/main.rs:252`) even
though the iteration did run (`time_start` is in its trace).  So it is not
the case that in every iteration `time_stop` is called once at the bottom. -/
theorem time_stop_skipped_in_final_iteration :
    (loopIter 1 1 [Event.quit] true
      { timer := FrameTimer.new 0, running_time := 0,
        surface_config := init_surface_config 7 800 600 }).2.1.count
        Action.timeStop = 0
    ∧ Action.timeStart ∈ (loopIter 1 1 [Event.quit] true
        { timer := FrameTimer.new 0, running_time := 0,
          surface_config := init_surface_config 7 800 600 }).2.1 := by
  decide

/-- C6 (amended): in every iteration of the render loop, `time_start` is
the first action and occurs exactly once, the delta read from the timer is
accumulated into the running total, and the running total together with the
per-frame delta is passed exactly once to `update_time`; in every iteration
that does not break out of the loop, `time_stop` additionally occurs exactly
once, as the last action; in the single iteration that breaks (Quit/Escape),
`time_stop` is not called. -/
theorem timer_protocol_per_iteration (mid : Nat) (now : ℚ)
    (events : List Event) (nr : Bool) (s : IterState) :
    ((loopIter mid now events nr s).2.1).head? = some Action.timeStart
    ∧ ((loopIter mid now events nr s).2.1).count Action.timeStart = 1
    ∧ ((loopIter mid now events nr s).2.1).count
        (Action.updateTime
          (some (s.running_time + (s.timer.time_start now).delta))
          ((s.timer.time_start now).delta)) = 1
    ∧ (loopIter mid now events nr s).1.running_time
        = s.running_time + (s.timer.time_start now).delta
    ∧ ((loopIter mid now events nr s).2.2 = false →
        ((loopIter mid now events nr s).2.1).count Action.timeStop = 1
        ∧ ((loopIter mid now events nr s).2.1).getLast?
            = some Action.timeStop)
    ∧ ((loopIter mid now events nr s).2.2 = true →
        ((loopIter mid now events nr s).2.1).count Action.timeStop = 0) := by
  have hstart : (processEvents mid s.surface_config events).2.1.count
      Action.timeStart = 0 :=
    processEvents_count_zero mid events s.surface_config Action.timeStart
      (fun c hc => by cases hc) (fun e he => by cases he)
  have hstop : (processEvents mid s.surface_config events).2.1.count
      Action.timeStop = 0 :=
    processEvents_count_zero mid events s.surface_config Action.timeStop
      (fun c hc => by cases hc) (fun e he => by cases he)
  have hupd : (processEvents mid s.surface_config events).2.1.count
      (Action.updateTime
        (some (s.running_time + (s.timer.time_start now).delta))
        ((s.timer.time_start now).delta)) = 0 :=
    processEvents_count_zero mid events s.surface_config _
      (fun c hc => by cases hc) (fun e he => by cases he)
  by_cases hb : (processEvents mid s.surface_config events).2.2 = true
  · simp only [loopIter, hb, if_true]
    refine ⟨by trivial, ?_, ?_, by trivial, ?_, ?_⟩
    · simp [List.count_cons, List.count_append, hstart]
    · simp [List.count_cons, List.count_append, hupd]
    · intro hfalse
      cases hfalse
    · intro _
      simp [List.count_cons, List.count_append, hstop]
  · have hb2 : (processEvents mid s.surface_config events).2.2 = false := by
      simpa using hb
    simp only [loopIter, hb2, Bool.false_eq_true, if_false]
    refine ⟨by trivial, ?_, ?_, by trivial, ?_, ?_⟩
    · cases nr <;>
        simp [List.count_cons, List.count_append, hstart]
    · cases nr <;>
        simp [List.count_cons, List.count_append, hupd]
    · intro _
      constructor
      · cases nr <;>
          simp [List.count_cons, List.count_append, hstop]
      · exact List.getLast?_concat _
    · intro htrue
      cases htrue

/-- Witness for `timer_protocol_per_iteration`: a concrete completed
iteration starts with `time_start`, ends with `time_stop`, and calls
`time_stop` exactly once. -/
theorem timer_protocol_per_iteration_witness :
    ((loopIter 1 2 [Event.otherEvent 0] false
        { timer := FrameTimer.new 0, running_time := 0,
          surface_config := init_surface_config 7 800 600 }).2.1).head?
      = some Action.timeStart
    ∧ ((loopIter 1 2 [Event.otherEvent 0] false
        { timer := FrameTimer.new 0, running_time := 0,
          surface_config := init_surface_config 7 800 600 }).2.1).count
        Action.timeStop = 1
    ∧ ((loopIter 1 2 [Event.otherEvent 0] false
        { timer := FrameTimer.new 0, running_time := 0,
          surface_config := init_surface_config 7 800 600 }).2.1).getLast?
      = some Action.timeStop := by
  have h := timer_protocol_per_iteration 1 2 [Event.otherEvent 0] false
    { timer := FrameTimer.new 0, running_time := 0,
      surface_config := init_surface_config 7 800 600 }
  have hb : (loopIter 1 2 [Event.otherEvent 0] false
      { timer := FrameTimer.new 0, running_time := 0,
        surface_config := init_surface_config 7 800 600 }).2.2 = false := by
    decide
  exact ⟨h.1, (h.2.2.2.2.1 hb).1, (h.2.2.2.2.1 hb).2⟩

end EguiSDL2Example
